import Mathlib

set_option linter.unusedVariables false

/-! Shallow embedding of `aws_lambda_powertools/utilities/idempotency/persistence.py`:
the idempotency `DataRecord`, the `BasePersistenceLayer` operations
(`save_inprogress`, `save_success`, `save_error`, `get_record`) composed with the
`DynamoDBPersistenceLayer` backend, the local LRU cache, the key derivation
(jmespath extraction + md5 over `json.dumps`), and a model of the DynamoDB
table behaviour (conditional put, get, update, delete).
-/

/-- JSON-like values: request payloads, extracted sub-values and handler
results (Python dict / list / str / int / bool / None, as handled by the
`json` module; numbers restricted to integers). -/
inductive Json where
  | null : Json
  | bool (b : Bool) : Json
  | num (n : Int) : Json
  | str (s : String) : Json
  | arr (xs : List Json) : Json
  | obj (kvs : List (String × Json)) : Json

/-- Modelled from the spec: the serialized form produced by the external
`json` module (a Python `str`); serialization must be deterministic and
invertible by deserialization. Modelled as a flat token stream. -/
inductive Tok where
  | nat (n : Nat)
  | int (i : Int)
  | str (s : String)
  deriving DecidableEq

abbrev JsonStr := List Tok

mutual

/-- Modelled from the spec: deterministic serialization of a JSON value
(Python `json.dumps`; the json module is external to this repository). -/
def Json.dumps : Json → JsonStr
  | .null => [.nat 0]
  | .bool false => [.nat 1]
  | .bool true => [.nat 2]
  | .num i => [.nat 3, .int i]
  | .str s => [.nat 4, .str s]
  | .arr xs => .nat 5 :: .nat xs.length :: dumpsList xs
  | .obj kvs => .nat 6 :: .nat kvs.length :: dumpsObj kvs

def dumpsList : List Json → JsonStr
  | [] => []
  | x :: xs => Json.dumps x ++ dumpsList xs

def dumpsObj : List (String × Json) → JsonStr
  | [] => []
  | (k, v) :: kvs => .str k :: (Json.dumps v ++ dumpsObj kvs)

end

mutual

/-- Modelled from the spec: deserializer for `Json.dumps` output (Python
`json.loads`, external to this repository); fuel-indexed recursive descent. -/
def decodeJ : Nat → JsonStr → Option (Json × JsonStr)
  | _, Tok.nat 0 :: r => some (Json.null, r)
  | _, Tok.nat 1 :: r => some (Json.bool false, r)
  | _, Tok.nat 2 :: r => some (Json.bool true, r)
  | _, Tok.nat 3 :: Tok.int i :: r => some (Json.num i, r)
  | _, Tok.nat 4 :: Tok.str s :: r => some (Json.str s, r)
  | fuel + 1, Tok.nat 5 :: Tok.nat n :: r =>
      match decodeL fuel n r with
      | some (xs, rest) => some (Json.arr xs, rest)
      | none => none
  | fuel + 1, Tok.nat 6 :: Tok.nat n :: r =>
      match decodeO fuel n r with
      | some (kvs, rest) => some (Json.obj kvs, rest)
      | none => none
  | _, _ => none

def decodeL : Nat → Nat → JsonStr → Option (List Json × JsonStr)
  | _, 0, r => some ([], r)
  | fuel + 1, n + 1, r =>
      match decodeJ fuel r with
      | some (x, r1) =>
          match decodeL fuel n r1 with
          | some (xs, r2) => some (x :: xs, r2)
          | none => none
      | none => none
  | 0, _ + 1, _ => none

def decodeO : Nat → Nat → JsonStr → Option (List (String × Json) × JsonStr)
  | _, 0, r => some ([], r)
  | fuel + 1, n + 1, Tok.str k :: r =>
      match decodeJ fuel r with
      | some (v, r1) =>
          match decodeO fuel n r1 with
          | some (kvs, r2) => some ((k, v) :: kvs, r2)
          | none => none
      | none => none
  | _, _ + 1, _ => none

end

mutual

/-- Size measure used as decoding fuel. -/
def sizeJ : Json → Nat
  | .null => 1
  | .bool _ => 1
  | .num _ => 1
  | .str _ => 1
  | .arr xs => sizeL xs + 1
  | .obj kvs => sizeO kvs + 1

def sizeL : List Json → Nat
  | [] => 0
  | x :: xs => sizeJ x + sizeL xs + 1

def sizeO : List (String × Json) → Nat
  | [] => 0
  | (_, v) :: kvs => sizeJ v + sizeO kvs + 1

end

/-- Modelled from the spec: Python `json.loads` on a complete serialized
value (external to this repository); fails on malformed input or trailing
data. -/
def Json.loads (s : JsonStr) : Option Json :=
  match decodeJ (2 * s.length) s with
  | some (j, []) => some j
  | _ => none

/-- Numeric rendering of one token, fed to the digest. -/
def tokNats : Tok → List Nat
  | .nat n => [0, n]
  | .int i => [1, 2 * i.natAbs + (if i < 0 then 1 else 0)]
  | .str s => 2 :: s.length :: (s.data.map Char.toNat)

/-- One mixing step of the digest accumulator (kept below 2 ^ 128). -/
def md5Mix (acc n : Nat) : Nat := (acc * 131 + n + 7) % 2 ^ 128

/-- Modelled from the spec: the 128-bit digest of the serialized bytes
(`hashlib.md5`, external to this repository): "a fixed-length,
collision-resistant digest over the serialized bytes". -/
def md5Digest (bs : JsonStr) : Nat :=
  bs.foldl (fun acc t => (tokNats t).foldl md5Mix acc) 5381 % 2 ^ 128

/-- Lower-case hex character for a digit below 16. -/
def hexChar (n : Nat) : Char :=
  if n < 10 then Char.ofNat (48 + n) else Char.ofNat (87 + n)

/-- Exactly `k` hex characters of `n`, most significant first. -/
def hexDigits : Nat → Nat → List Char
  | 0, _ => []
  | k + 1, n => hexChar (n / 16 ^ k % 16) :: hexDigits k n

/-- Modelled from the spec: `hashlib.md5(...).hexdigest()` — the digest as a
32-character hex string (the idempotency key). -/
def md5Hex (bs : JsonStr) : String := String.mk (hexDigits 32 (md5Digest bs))

/- String constants mirroring the literals of persistence.py. -/

def sDOESNOTEXIST : String := "DOESNOTEXIST"
def sINPROGRESS : String := "INPROGRESS"
def sCOMPLETED : String := "COMPLETED"
def sEXPIRED : String := "EXPIRED"
def sERROR : String := "ERROR"
def sNOTEXISTING : String := "NOTEXISTING"
def sId : String := "id"
def sExpiration : String := "expiration"
def sStatus : String := "status"
def sData : String := "data"

/-- Model of `STATUS_CONSTANTS` of persistence.py, a dict from logical name to stored
status string. -/
def STATUS_CONSTANTS : List (String × String) :=
  [(sNOTEXISTING, sDOESNOTEXIST), (sINPROGRESS, sINPROGRESS),
   (sCOMPLETED, sCOMPLETED), (sEXPIRED, sEXPIRED), (sERROR, sERROR)]

/-- Model of `STATUS_CONSTANTS.values()`. -/
def statusValues : List String := STATUS_CONSTANTS.map (·.2)

/-- Typed failures raised by persistence.py (`InvalidStatusError`,
`ItemAlreadyExistsError`, `ItemNotFoundError` from .exceptions), plus the
raw Python `KeyError` / `TypeError` propagation where the code indexes a
missing dict key or deserializes a missing response. -/
inductive PersistenceError where
  | invalidStatus (s : Option String)
  | itemAlreadyExists
  | itemNotFound
  | keyError (attr : String)
  | typeMismatch (attr : String)
  | malformedResponse
  | typeError
  deriving DecidableEq

/-- Model of `DataRecord` of persistence.py: one idempotency record. `_status` is
the raw stored status (the `status` keyword argument); `expiry_timestamp`
in unix seconds; `response_data` the serialized response string. -/
structure DataRecord where
  idempotency_key : String
  _status : Option String := none
  expiry_timestamp : Option Int := none
  response_data : Option JsonStr := none
  deriving DecidableEq

/-- Model of `DataRecord.is_expired`: Python checks `if self.expiry_timestamp:`
(truthiness — `None` and `0` are both falsy) and then
`int(datetime.now().timestamp()) > self.expiry_timestamp`. The current
time is passed explicitly. -/
def DataRecord.is_expired (r : DataRecord) (now : Int) : Bool :=
  match r.expiry_timestamp with
  | none => false
  | some t => if t = 0 then false else decide (now > t)

/-- Model of the `DataRecord.status` property: `EXPIRED` when expired, else the stored
status when it is in `STATUS_CONSTANTS.values()`, else
`InvalidStatusError`. -/
def DataRecord.status (r : DataRecord) (now : Int) : Except PersistenceError String :=
  if r.is_expired now then Except.ok sEXPIRED
  else
    match r._status with
    | some s => if s ∈ statusValues then Except.ok s else Except.error (.invalidStatus (some s))
    | none => Except.error (.invalidStatus none)

/-- Model of `DataRecord.response_json_as_dict`: `json.loads(self.response_data)`;
`json.loads(None)` raises `TypeError`, malformed data raises a decode
error. -/
def DataRecord.response_json_as_dict (r : DataRecord) : Except PersistenceError Json :=
  match r.response_data with
  | none => Except.error .typeError
  | some d =>
      match Json.loads d with
      | some j => Except.ok j
      | none => Except.error .malformedResponse

/- Association-list primitives shared by the cache and the table model. -/

/-- Lookup in an association list keyed by strings (first binding wins,
like a Python dict / DynamoDB attribute map). -/
def assocGet {α : Type} : List (String × α) → String → Option α
  | [], _ => none
  | (k1, v) :: l, k => if k1 = k then some v else assocGet l k

/-- Remove every binding of `k`. -/
def assocErase {α : Type} : List (String × α) → String → List (String × α)
  | [], _ => []
  | (k1, v) :: l, k => if k1 = k then assocErase l k else (k1, v) :: assocErase l k

/-- Bind `k` to `v` (new binding first, old binding removed). -/
def assocSet {α : Type} (l : List (String × α)) (k : String) (v : α) : List (String × α) :=
  (k, v) :: assocErase l k

/-- Local cache state. Modelled from the spec: `LRUDict` (cache_dict.py is
not under src/): "bounded mapping from key to Record with
least-recently-used eviction once a configured capacity is exceeded;
`get`, `put`, `delete` operations". Most recent binding first; `put`
truncates to capacity; the recency bookkeeping of `get` is not observable
by any property below and is omitted. -/
abbrev Cache := List (String × DataRecord)

/-- Cache `get`: `None` on a missing key, like `dict.get`. -/
def cacheGet (c : Cache) (k : String) : Option DataRecord := assocGet c k

/-- Cache `put` (`self._cache[key] = record`): insert as most recent and
evict down to the capacity bound. -/
def cachePut (c : Cache) (maxsize : Nat) (k : String) (r : DataRecord) : Cache :=
  (assocSet c k r).take maxsize

/-- Cache `delete` (`del self._cache[key]`). -/
def cacheDelete (c : Cache) (k : String) : Cache := assocErase c k

/-- DynamoDB attribute values as used by persistence.py: strings, numbers,
the serialized response payload, and NULL (boto3 maps Python `None` to
NULL and back). -/
inductive AttrVal where
  | str (s : String)
  | int (n : Int)
  | data (d : JsonStr)
  | null
  deriving DecidableEq

/-- A DynamoDB item: attribute name to attribute value. -/
abbrev Item := List (String × AttrVal)

/-- The DynamoDB table: one item per key value (the partition key is
`key_attr`; the model is keyed directly by that string). -/
abbrev Table := List (String × Item)

/-- Configuration of a `DynamoDBPersistenceLayer`, including the
`BasePersistenceLayer` fields it forwards to `super().__init__`.
`event_key_search` is the compiled jmespath expression
(`jmespath.compile(event_key).search`, external to this repository,
treated as an opaque extraction function; a non-matching expression
returns Python `None`, i.e. `Json.null`). -/
structure DynamoDBPersistenceLayer where
  event_key_search : Json → Json
  expires_after : Int := 3600
  use_local_cache : Bool := false
  local_cache_maxsize : Nat := 1024
  key_attr : String := sId
  expiry_attr : String := sExpiration
  status_attr : String := sStatus
  data_attr : String := sData

/-- Mutable state manipulated by the layer: the DynamoDB table and the
local cache. -/
structure PersistState where
  table : Table := []
  cache : Cache := []
  deriving DecidableEq

/-- Model of `BasePersistenceLayer.get_hashed_idempotency_key`: evaluate the
jmespath expression on the event and md5-hash `json.dumps` of the result. -/
def get_hashed_idempotency_key (L : DynamoDBPersistenceLayer) (lambda_event : Json) : String :=
  md5Hex (Json.dumps (L.event_key_search lambda_event))

/-- Model of `BasePersistenceLayer._get_expiry_timestamp`:
`int((now + timedelta(seconds=expires_after)).timestamp())`. -/
def _get_expiry_timestamp (L : DynamoDBPersistenceLayer) (now : Int) : Int :=
  now + L.expires_after

/-- Model of `BasePersistenceLayer._save_to_cache`. -/
def _save_to_cache (L : DynamoDBPersistenceLayer) (c : Cache) (r : DataRecord) : Cache :=
  cachePut c L.local_cache_maxsize r.idempotency_key r

/-- Model of `BasePersistenceLayer._delete_from_cache`. -/
def _delete_from_cache (c : Cache) (k : String) : Cache := cacheDelete c k

/-- Model of `BasePersistenceLayer._retrieve_from_cache`: a hit returns the cached
record; an expired cached record is deleted and treated as a miss; returns
the record (or `none`) together with the updated cache. -/
def _retrieve_from_cache (c : Cache) (k : String) (now : Int) : Option DataRecord × Cache :=
  match cacheGet c k with
  | none => (none, c)
  | some cached_record =>
      if cached_record.is_expired now then (none, _delete_from_cache c k)
      else (some cached_record, c)

/-- Read an optional string attribute the way
`DynamoDBPersistenceLayer._item_to_data_record` does with `item[attr]`:
a missing attribute raises `KeyError`; NULL deserializes to `None`. -/
def readStrAttr (it : Item) (a : String) : Except PersistenceError (Option String) :=
  match assocGet it a with
  | none => Except.error (.keyError a)
  | some (.str s) => Except.ok (some s)
  | some .null => Except.ok none
  | some _ => Except.error (.typeMismatch a)

/-- Read an optional numeric attribute with `item[attr]` semantics. -/
def readIntAttr (it : Item) (a : String) : Except PersistenceError (Option Int) :=
  match assocGet it a with
  | none => Except.error (.keyError a)
  | some (.int n) => Except.ok (some n)
  | some .null => Except.ok none
  | some _ => Except.error (.typeMismatch a)

/-- Read the key attribute (`item[self.key_attr]`), always a string for
items this layer writes. -/
def readKeyAttr (it : Item) (a : String) : Except PersistenceError String :=
  match assocGet it a with
  | none => Except.error (.keyError a)
  | some (.str s) => Except.ok s
  | some _ => Except.error (.typeMismatch a)

/-- Read the response attribute with `item.get(attr)` semantics: missing
gives `None`, never an error. -/
def readDataAttr (it : Item) (a : String) : Except PersistenceError (Option JsonStr) :=
  match assocGet it a with
  | none => Except.ok none
  | some (.data d) => Except.ok (some d)
  | some .null => Except.ok none
  | some _ => Except.error (.typeMismatch a)

/-- Model of `DynamoDBPersistenceLayer._item_to_data_record`: builds the
`DataRecord` from `item[self.key_attr]`, `item[self.status_attr]`,
`item[self.expiry_attr]` and `item.get(self.data_attr)`, in Python keyword
evaluation order. -/
def _item_to_data_record (L : DynamoDBPersistenceLayer) (item : Item) :
    Except PersistenceError DataRecord :=
  match readKeyAttr item L.key_attr with
  | Except.error e => Except.error e
  | Except.ok k =>
      match readStrAttr item L.status_attr with
      | Except.error e => Except.error e
      | Except.ok st =>
          match readIntAttr item L.expiry_attr with
          | Except.error e => Except.error e
          | Except.ok exp =>
              match readDataAttr item L.data_attr with
              | Except.error e => Except.error e
              | Except.ok rd =>
                  Except.ok { idempotency_key := k, _status := st,
                              expiry_timestamp := exp, response_data := rd }

/-- Model of `DynamoDBPersistenceLayer._get_record`: consistent `get_item` on the
key; a response without an `Item` raises `ItemNotFoundError`. -/
def _get_record (L : DynamoDBPersistenceLayer) (tbl : Table) (idempotency_key : String) :
    Except PersistenceError DataRecord :=
  match assocGet tbl idempotency_key with
  | none => Except.error .itemNotFound
  | some item => _item_to_data_record L item

/-- Attribute value stored for an optional int field (boto3 stores Python
`None` as NULL). -/
def attrOfExpiry : Option Int → AttrVal
  | some t => AttrVal.int t
  | none => AttrVal.null

/-- Attribute value stored for an optional serialized-response field. -/
def attrOfData : Option JsonStr → AttrVal
  | some d => AttrVal.data d
  | none => AttrVal.null

/-- The condition `attribute_not_exists({key_attr}) OR expiration < :now`
evaluated by DynamoDB against the existing item (note the literal
attribute name `expiration`): a missing or non-numeric `expiration`
attribute makes the comparison false. -/
def putConditionHolds (L : DynamoDBPersistenceLayer) (old : Item) (now : Int) : Bool :=
  (assocGet old L.key_attr).isNone ||
    (match assocGet old sExpiration with
     | some (.int t) => decide (t < now)
     | _ => false)

/-- Model of `DynamoDBPersistenceLayer._put_record`: conditional `put_item` writing
the key under `key_attr` but the expiry and status under the literal
attribute names `expiration` and `status` (status always
`STATUS_CONSTANTS["INPROGRESS"]`); a conditional-check failure raises
`ItemAlreadyExistsError` and leaves the table unchanged. -/
def _put_record (L : DynamoDBPersistenceLayer) (tbl : Table) (data_record : DataRecord)
    (now : Int) : Except PersistenceError Table :=
  let item : Item :=
    [(L.key_attr, AttrVal.str data_record.idempotency_key),
     (sExpiration, attrOfExpiry data_record.expiry_timestamp),
     (sStatus, AttrVal.str sINPROGRESS)]
  match assocGet tbl data_record.idempotency_key with
  | none => Except.ok (assocSet tbl data_record.idempotency_key item)
  | some old =>
      if putConditionHolds L old now then
        Except.ok (assocSet tbl data_record.idempotency_key item)
      else Except.error .itemAlreadyExists

/-- DynamoDB `update_item`: merge the SET clauses into the existing item,
creating the item (with its key attribute) when absent; the key attribute
of a stored item always equals its key. -/
def updateItem (tbl : Table) (keyAttr k : String) (sets : List (String × AttrVal)) : Table :=
  let base := ((assocGet tbl k).getD []) |>.filter (fun p => p.1 ≠ keyAttr)
  let withKey : Item := (keyAttr, AttrVal.str k) :: base
  assocSet tbl k (sets.foldl (fun it p => assocSet it p.1 p.2) withKey)

/-- Model of `DynamoDBPersistenceLayer._update_record`: unconditional `update_item`
setting `data_attr`, `expiry_attr` and `status_attr` (the status written
is the `DataRecord.status` property value, which can itself fail). -/
def _update_record (L : DynamoDBPersistenceLayer) (tbl : Table) (data_record : DataRecord)
    (now : Int) : Except PersistenceError Table :=
  match data_record.status now with
  | Except.error e => Except.error e
  | Except.ok st =>
      Except.ok (updateItem tbl L.key_attr data_record.idempotency_key
        [(L.data_attr, attrOfData data_record.response_data),
         (L.expiry_attr, attrOfExpiry data_record.expiry_timestamp),
         (L.status_attr, AttrVal.str st)])

/-- Model of `DynamoDBPersistenceLayer._delete_record`: unconditional `delete_item`
on the key of the record. -/
def _delete_record (tbl : Table) (data_record : DataRecord) : Table :=
  assocErase tbl data_record.idempotency_key

/-- Model of `BasePersistenceLayer.save_inprogress`: build an INPROGRESS record with
a fresh expiry, conditionally create it in the backend, then populate the
cache on success (an `ItemAlreadyExistsError` propagates before the cache
write). `now` is the wall clock of the call. -/
def save_inprogress (L : DynamoDBPersistenceLayer) (st : PersistState) (now : Int)
    (event : Json) : Except PersistenceError Unit × PersistState :=
  let data_record : DataRecord :=
    { idempotency_key := get_hashed_idempotency_key L event,
      _status := some sINPROGRESS,
      expiry_timestamp := some (_get_expiry_timestamp L now) }
  match _put_record L st.table data_record now with
  | Except.error e => (Except.error e, st)
  | Except.ok tbl =>
      if L.use_local_cache then
        (Except.ok (), { table := tbl, cache := _save_to_cache L st.cache data_record })
      else (Except.ok (), { table := tbl, cache := st.cache })

/-- Model of `BasePersistenceLayer.save_success`: serialize the result, build a
COMPLETED record with a fresh expiry, unconditionally update the backend,
then update the cache. -/
def save_success (L : DynamoDBPersistenceLayer) (st : PersistState) (now : Int)
    (event result : Json) : Except PersistenceError Unit × PersistState :=
  let response_data := Json.dumps result
  let data_record : DataRecord :=
    { idempotency_key := get_hashed_idempotency_key L event,
      _status := some sCOMPLETED,
      expiry_timestamp := some (_get_expiry_timestamp L now),
      response_data := some response_data }
  match _update_record L st.table data_record now with
  | Except.error e => (Except.error e, st)
  | Except.ok tbl =>
      if L.use_local_cache then
        (Except.ok (), { table := tbl, cache := _save_to_cache L st.cache data_record })
      else (Except.ok (), { table := tbl, cache := st.cache })

/-- Model of `BasePersistenceLayer.save_error`: build an ERROR record (used only for
its key — the exception value is never persisted), delete the backend row
and the cache entry. -/
def save_error (L : DynamoDBPersistenceLayer) (st : PersistState) (now : Int)
    (event : Json) (exc : String) : PersistState :=
  let data_record : DataRecord :=
    { idempotency_key := get_hashed_idempotency_key L event,
      _status := some sERROR,
      expiry_timestamp := some (_get_expiry_timestamp L now) }
  let tbl := _delete_record st.table data_record
  if L.use_local_cache then
    { table := tbl, cache := _delete_from_cache st.cache data_record.idempotency_key }
  else { table := tbl, cache := st.cache }

/-- Model of `BasePersistenceLayer.get_record`: derive the key, consult the cache
when enabled (with lazy-expiry eviction), otherwise read the backend. The
cache eviction persists even when the backend read fails. -/
def get_record (L : DynamoDBPersistenceLayer) (st : PersistState) (now : Int)
    (lambda_event : Json) : Except PersistenceError DataRecord × PersistState :=
  let idempotency_key := get_hashed_idempotency_key L lambda_event
  if L.use_local_cache then
    match _retrieve_from_cache st.cache idempotency_key now with
    | (some cached_record, c) => (Except.ok cached_record, { table := st.table, cache := c })
    | (none, c) => (_get_record L st.table idempotency_key, { table := st.table, cache := c })
  else (_get_record L st.table idempotency_key, st)

/-- The record-level response/status invariant: the response field is set
exactly when the STORED status is COMPLETED. -/
def RecordOk (r : DataRecord) : Prop :=
  r.response_data ≠ none ↔ r._status = some sCOMPLETED

/-- The item-level response/status invariant for stored backend rows. -/
def ItemOk (L : DynamoDBPersistenceLayer) (it : Item) : Prop :=
  (assocGet it L.status_attr = some (AttrVal.str sCOMPLETED) ∧
    ∃ d, assocGet it L.data_attr = some (AttrVal.data d)) ∨
  (assocGet it L.status_attr ≠ some (AttrVal.str sCOMPLETED) ∧
    assocGet it L.data_attr = none)

/-- The invariant over the whole mutable state: every stored backend item
and every cached record satisfies the response/status invariant. -/
def StateOk (L : DynamoDBPersistenceLayer) (st : PersistState) : Prop :=
  (∀ k it, assocGet st.table k = some it → ItemOk L it) ∧
  (∀ k r, cacheGet st.cache k = some r → RecordOk r)

/- Concrete fixtures used to evaluate the theorems on explicit inputs. -/

/-- Identity extraction expression (jmespath expression selecting the whole
event). -/
def searchSelf : Json → Json := fun j => j

/-- Default layer: cache disabled, default attribute names, TTL 3600. -/
def L0 : DynamoDBPersistenceLayer := { event_key_search := searchSelf }

/-- Layer with the local cache enabled (capacity 4). -/
def L1 : DynamoDBPersistenceLayer :=
  { event_key_search := searchSelf, use_local_cache := true, local_cache_maxsize := 4 }

/-- The key derived for the payload `null` under the identity expression. -/
def k0 : String := get_hashed_idempotency_key L0 Json.null

/-- A backend item for `k0` whose expiry (1000) is in the future of the
test clocks. -/
def itemLive : Item :=
  [(sId, AttrVal.str k0), (sExpiration, AttrVal.int 1000), (sStatus, AttrVal.str sINPROGRESS)]

/-- A backend item for `k0` whose expiry (5) is already in the past at the
test clocks. -/
def itemExpired : Item :=
  [(sId, AttrVal.str k0), (sExpiration, AttrVal.int 5), (sStatus, AttrVal.str sINPROGRESS)]

/-- The record corresponding to `itemLive`. -/
def recLive : DataRecord :=
  { idempotency_key := k0, _status := some sINPROGRESS, expiry_timestamp := some 1000 }

/-- The record corresponding to `itemExpired`. -/
def recExpired : DataRecord :=
  { idempotency_key := k0, _status := some sINPROGRESS, expiry_timestamp := some 5 }

/-- A custom status attribute name. -/
def sSt : String := "st"

/-- Layer configured with a non-default status attribute name. -/
def L6 : DynamoDBPersistenceLayer := { event_key_search := searchSelf, status_attr := sSt }

/-- A custom expiry attribute name. -/
def sExp : String := "exp"

/-- Layer configured with a non-default expiry attribute name only (the
status attribute keeps its default). -/
def L7 : DynamoDBPersistenceLayer := { event_key_search := searchSelf, expiry_attr := sExp }

/-! Helper lemmas: the serializer round-trips, and digests have fixed
length. -/

set_option maxHeartbeats 2000000 in
theorem decode_dumps (fuel : Nat) :
    (∀ j r, sizeJ j ≤ fuel → decodeJ fuel (Json.dumps j ++ r) = some (j, r)) ∧
    (∀ xs r, sizeL xs ≤ fuel → decodeL fuel xs.length (dumpsList xs ++ r) = some (xs, r)) ∧
    (∀ kvs r, sizeO kvs ≤ fuel →
      decodeO fuel kvs.length (dumpsObj kvs ++ r) = some (kvs, r)) := by
  induction fuel with
  | zero =>
    refine ⟨?_, ?_, ?_⟩
    · intro j r h
      cases j <;> simp [sizeJ] at h
    · intro xs r h
      cases xs with
      | nil => simp [dumpsList, decodeL]
      | cons x xs => simp [sizeL] at h
    · intro kvs r h
      cases kvs with
      | nil => simp [dumpsObj, decodeO]
      | cons kv kvs =>
        obtain ⟨k, v⟩ := kv
        simp [sizeO] at h
  | succ f ih =>
    obtain ⟨ihJ, ihL, ihO⟩ := ih
    refine ⟨?_, ?_, ?_⟩
    · intro j r h
      cases j with
      | null => simp [Json.dumps, decodeJ]
      | bool b => cases b <;> simp [Json.dumps, decodeJ]
      | num i => simp [Json.dumps, decodeJ]
      | str s => simp [Json.dumps, decodeJ]
      | arr xs =>
        have hx : sizeL xs ≤ f := by simp [sizeJ] at h; omega
        simp [Json.dumps, decodeJ, ihL xs r hx]
      | obj kvs =>
        have hx : sizeO kvs ≤ f := by simp [sizeJ] at h; omega
        simp [Json.dumps, decodeJ, ihO kvs r hx]
    · intro xs r h
      cases xs with
      | nil => simp [dumpsList, decodeL]
      | cons x xs =>
        have h1 : sizeJ x ≤ f := by simp [sizeL] at h; omega
        have h2 : sizeL xs ≤ f := by simp [sizeL] at h; omega
        simp [dumpsList, decodeL, List.append_assoc, ihJ x _ h1, ihL xs r h2]
    · intro kvs r h
      cases kvs with
      | nil => simp [dumpsObj, decodeO]
      | cons kv kvs =>
        obtain ⟨k, v⟩ := kv
        have h1 : sizeJ v ≤ f := by simp [sizeO] at h; omega
        have h2 : sizeO kvs ≤ f := by simp [sizeO] at h; omega
        simp [dumpsObj, decodeO, List.append_assoc, ihJ v _ h1, ihO kvs r h2]

mutual

theorem sizeJ_le_dumps : ∀ j : Json, sizeJ j + 1 ≤ 2 * (Json.dumps j).length
  | .null => by simp [sizeJ, Json.dumps]
  | .bool b => by cases b <;> simp [sizeJ, Json.dumps]
  | .num i => by simp [sizeJ, Json.dumps]
  | .str s => by simp [sizeJ, Json.dumps]
  | .arr xs => by
      have h := sizeL_le_dumpsList xs
      simp only [sizeJ, Json.dumps, List.length_cons]
      omega
  | .obj kvs => by
      have h := sizeO_le_dumpsObj kvs
      simp only [sizeJ, Json.dumps, List.length_cons]
      omega

theorem sizeL_le_dumpsList : ∀ xs : List Json, sizeL xs ≤ 2 * (dumpsList xs).length
  | [] => by simp [sizeL, dumpsList]
  | x :: xs => by
      have h1 := sizeJ_le_dumps x
      have h2 := sizeL_le_dumpsList xs
      simp only [sizeL, dumpsList, List.length_append]
      omega

theorem sizeO_le_dumpsObj : ∀ kvs : List (String × Json), sizeO kvs ≤ 2 * (dumpsObj kvs).length
  | [] => by simp [sizeO, dumpsObj]
  | (k, v) :: kvs => by
      have h1 := sizeJ_le_dumps v
      have h2 := sizeO_le_dumpsObj kvs
      simp only [sizeO, dumpsObj, List.length_cons, List.length_append]
      omega

end

theorem loads_dumps (j : Json) : Json.loads (Json.dumps j) = some j := by
  have hsz : sizeJ j ≤ 2 * (Json.dumps j).length := by
    have := sizeJ_le_dumps j
    omega
  have h := (decode_dumps (2 * (Json.dumps j).length)).1 j [] hsz
  rw [List.append_nil] at h
  simp [Json.loads, h]

theorem hexDigits_length (k : Nat) : ∀ n : Nat, (hexDigits k n).length = k := by
  induction k with
  | zero => intro n; simp [hexDigits]
  | succ k ih => intro n; simp [hexDigits, ih]

theorem md5Hex_length (bs : JsonStr) : (md5Hex bs).length = 32 := by
  simp [md5Hex, String.length, hexDigits_length]

theorem assocGet_set_self {α : Type} (l : List (String × α)) (k : String) (v : α) :
    assocGet (assocSet l k v) k = some v := by
  simp [assocGet, assocSet]

theorem assocGet_erase_self {α : Type} (l : List (String × α)) (k : String) :
    assocGet (assocErase l k) k = none := by
  induction l with
  | nil => rfl
  | cons p l ih =>
    obtain ⟨k1, v⟩ := p
    by_cases hp : k1 = k
    · simpa [assocErase, hp] using ih
    · simpa [assocErase, assocGet, hp] using ih

theorem assocGet_erase_ne {α : Type} (l : List (String × α)) (k k2 : String) (h : k2 ≠ k) :
    assocGet (assocErase l k) k2 = assocGet l k2 := by
  induction l with
  | nil => rfl
  | cons p l ih =>
    obtain ⟨k1, v⟩ := p
    have hkk : k ≠ k2 := fun e => h e.symm
    by_cases hp : k1 = k
    · subst hp
      simpa [assocErase, assocGet, hkk] using ih
    · by_cases hq : k1 = k2
      · subst hq
        simp [assocErase, assocGet, hp]
      · simpa [assocErase, assocGet, hp, hq] using ih

theorem assocGet_set_ne {α : Type} (l : List (String × α)) (k k2 : String) (v : α)
    (h : k2 ≠ k) : assocGet (assocSet l k v) k2 = assocGet l k2 := by
  have hne : k ≠ k2 := fun e => h e.symm
  simp only [assocSet, assocGet, hne, if_false]
  exact assocGet_erase_ne l k k2 h

theorem cachePut_zero (c : Cache) (k : String) (r : DataRecord) : cachePut c 0 k r = [] := by
  simp [cachePut]

theorem cacheGet_put_self (c : Cache) (m : Nat) (k : String) (r : DataRecord) (hm : 0 < m) :
    cacheGet (cachePut c m k r) k = some r := by
  obtain ⟨m, rfl⟩ : ∃ m2, m = m2 + 1 := ⟨m - 1, by omega⟩
  simp [cachePut, cacheGet, assocSet, assocGet]

/-- A successful conditional put stores exactly the three-attribute item
(key under `key_attr`, literals `expiration` and `status`). -/
theorem _put_record_ok (L : DynamoDBPersistenceLayer) (tbl : Table) (r : DataRecord)
    (now : Int) (tbl2 : Table) (h : _put_record L tbl r now = Except.ok tbl2) :
    tbl2 = assocSet tbl r.idempotency_key
      [(L.key_attr, AttrVal.str r.idempotency_key),
       (sExpiration, attrOfExpiry r.expiry_timestamp),
       (sStatus, AttrVal.str sINPROGRESS)] := by
  unfold _put_record at h
  split at h
  · exact (Except.ok.inj h).symm
  · split at h
    · exact (Except.ok.inj h).symm
    · exact absurd h (by simp)

/-- Claim C3 as written is violated by the code: a record whose stored
status is `DOESNOTEXIST` (one of the `STATUS_CONSTANTS` values, but not
one of IN_PROGRESS / COMPLETED / ERROR) and whose expiry is the set value
`0` with current time `5` reads back its stored status successfully —
the claim demands EXPIRED (expiry set and passed) or an InvalidStatus
failure (status outside the three-value set). -/
theorem c3_counterexample :
    DataRecord.status
        { idempotency_key := sId, _status := some sDOESNOTEXIST,
          expiry_timestamp := some 0 } 5 = Except.ok sDOESNOTEXIST ∧
      (5 : Int) > 0 ∧ sDOESNOTEXIST ∉ [sINPROGRESS, sCOMPLETED, sERROR] := by
  refine ⟨rfl, by norm_num, by decide⟩

/-- Claim C3 amended: a record is expired exactly when a NONZERO expiry is
set and the current time exceeds it (Python truthiness makes expiry `0`
behave like no expiry); when not expired, the effective status is the
stored status exactly when it is one of the five stored
`STATUS_CONSTANTS` values (DOESNOTEXIST, INPROGRESS, COMPLETED, EXPIRED,
ERROR), and any other stored status (including an unset one) fails with
`InvalidStatus`. -/
theorem c3_status_rules (r : DataRecord) (now : Int) :
    (r.is_expired now = true ↔ ∃ t, r.expiry_timestamp = some t ∧ t ≠ 0 ∧ now > t) ∧
    (∀ s : String, r.status now = Except.ok s ↔
      ((r.is_expired now = true ∧ s = sEXPIRED) ∨
       (r.is_expired now = false ∧ r._status = some s ∧ s ∈ statusValues))) ∧
    (∀ e : PersistenceError, r.status now = Except.error e ↔
      (r.is_expired now = false ∧ e = PersistenceError.invalidStatus r._status ∧
        ∀ s, r._status = some s → s ∉ statusValues)) := by
  refine ⟨?_, ?_, ?_⟩
  · cases hE : r.expiry_timestamp with
    | none => simp [DataRecord.is_expired, hE]
    | some t =>
      by_cases ht : t = 0 <;> simp [DataRecord.is_expired, hE, ht]
  · intro s
    by_cases hexp : r.is_expired now
    · have hstat : r.status now = Except.ok sEXPIRED := by simp [DataRecord.status, hexp]
      rw [hstat]
      constructor
      · intro h
        exact Or.inl ⟨hexp, (Except.ok.inj h).symm⟩
      · rintro (⟨h1, rfl⟩ | ⟨h1, h2, h3⟩)
        · rfl
        · exact absurd hexp (by simp [h1])
    · have hexp2 : r.is_expired now = false := by simpa using hexp
      cases hS : r._status with
      | none =>
        have hstat : r.status now = Except.error (.invalidStatus none) := by
          simp [DataRecord.status, hexp, hS]
        rw [hstat]
        constructor
        · intro h
          exact absurd h (by simp)
        · rintro (⟨h1, rfl⟩ | ⟨h1, h2, h3⟩)
          · exact absurd h1 (by simp [hexp2])
          · exact Option.noConfusion h2
      | some s0 =>
        by_cases hv : s0 ∈ statusValues
        · have hstat : r.status now = Except.ok s0 := by
            simp [DataRecord.status, hexp, hS, hv]
          rw [hstat]
          constructor
          · intro h
            refine Or.inr ⟨hexp2, ?_, ?_⟩
            · exact congrArg some (Except.ok.inj h)
            · exact (Except.ok.inj h) ▸ hv
          · rintro (⟨h1, rfl⟩ | ⟨h1, h2, h3⟩)
            · exact absurd h1 (by simp [hexp2])
            · injection h2 with h4
              exact congrArg Except.ok h4
        · have hstat : r.status now = Except.error (.invalidStatus (some s0)) := by
            simp [DataRecord.status, hexp, hS, hv]
          rw [hstat]
          constructor
          · intro h
            exact absurd h (by simp)
          · rintro (⟨h1, rfl⟩ | ⟨h1, h2, h3⟩)
            · exact absurd h1 (by simp [hexp2])
            · injection h2 with h4
              exact absurd (h4 ▸ h3) hv
  · intro e
    by_cases hexp : r.is_expired now
    · have hstat : r.status now = Except.ok sEXPIRED := by simp [DataRecord.status, hexp]
      rw [hstat]
      constructor
      · intro h
        exact absurd h (by simp)
      · rintro ⟨h1, h2, h3⟩
        exact absurd hexp (by simp [h1])
    · have hexp2 : r.is_expired now = false := by simpa using hexp
      cases hS : r._status with
      | none =>
        have hstat : r.status now = Except.error (.invalidStatus none) := by
          simp [DataRecord.status, hexp, hS]
        rw [hstat]
        constructor
        · intro h
          refine ⟨hexp2, ?_, ?_⟩
          · exact (Except.error.inj h).symm
          · intro s hs
            exact Option.noConfusion hs
        · rintro ⟨h1, h2, h3⟩
          rw [h2]
      | some s0 =>
        by_cases hv : s0 ∈ statusValues
        · have hstat : r.status now = Except.ok s0 := by
            simp [DataRecord.status, hexp, hS, hv]
          rw [hstat]
          constructor
          · intro h
            exact absurd h (by simp)
          · rintro ⟨h1, h2, h3⟩
            exact absurd hv (h3 s0 rfl)
        · have hstat : r.status now = Except.error (.invalidStatus (some s0)) := by
            simp [DataRecord.status, hexp, hS, hv]
          rw [hstat]
          constructor
          · intro h
            refine ⟨hexp2, ?_, ?_⟩
            · exact (Except.error.inj h).symm
            · intro s hs
              injection hs with h4
              exact h4 ▸ hv
          · rintro ⟨h1, h2, h3⟩
            rw [h2]

theorem c3_witness :
    DataRecord.status { idempotency_key := sId, _status := some sINPROGRESS } 7 =
      Except.ok sINPROGRESS := by
  exact ((c3_status_rules { idempotency_key := sId, _status := some sINPROGRESS } 7).2.1
    sINPROGRESS).mpr (Or.inr ⟨rfl, rfl, by decide⟩)

/-- Claim C7: the derived idempotency key is a deterministic function of
the value extracted by the configured expression — two payloads with
equal extracted sub-values (including two payloads on which the
expression yields no match, both extracting `Json.null`) derive equal
keys — and every derived key is a fixed-length (32-character hex digest)
string. -/
theorem c7_key_derivation (L : DynamoDBPersistenceLayer) (e1 e2 e3 : Json) :
    (L.event_key_search e1 = L.event_key_search e2 →
      get_hashed_idempotency_key L e1 = get_hashed_idempotency_key L e2) ∧
    (get_hashed_idempotency_key L e3).length = 32 := by
  constructor
  · intro h
    simp [get_hashed_idempotency_key, h]
  · simp [get_hashed_idempotency_key, md5Hex_length]

theorem c7_witness :
    get_hashed_idempotency_key { event_key_search := fun _ => Json.null }
        (Json.arr [Json.num 1]) =
      get_hashed_idempotency_key { event_key_search := fun _ => Json.null } Json.null ∧
    (get_hashed_idempotency_key { event_key_search := fun _ => Json.null }
        (Json.bool true)).length = 32 :=
  ⟨(c7_key_derivation { event_key_search := fun _ => Json.null }
      (Json.arr [Json.num 1]) Json.null (Json.bool true)).1 rfl,
   (c7_key_derivation { event_key_search := fun _ => Json.null }
      (Json.arr [Json.num 1]) Json.null (Json.bool true)).2⟩

/-- For an item that carries its key attribute (as every DynamoDB item
does), the conditional-put condition holds exactly when the stored
`expiration` attribute is a number below the current time. -/
theorem putConditionHolds_iff (L : DynamoDBPersistenceLayer) (it : Item) (now : Int)
    (hkeyattr : (assocGet it L.key_attr).isSome = true) :
    (putConditionHolds L it now = true ↔
      ∃ t, assocGet it sExpiration = some (AttrVal.int t) ∧ t < now) := by
  unfold putConditionHolds
  cases hval : assocGet it L.key_attr with
  | none => rw [hval] at hkeyattr; exact absurd hkeyattr (by simp)
  | some a =>
    simp only [hval, Option.isNone_some, Bool.false_or]
    cases hexp : assocGet it sExpiration with
    | none => simp
    | some av => cases av <;> simp

/-- Claim C2: `save_inprogress` performs a conditional create that
succeeds exactly when, at write time, the backend has no row for the
derived key or the stored `expiration` attribute of the row is a number less
than the current time; otherwise it fails with `ItemAlreadyExistsError`
and leaves both the table and the cache unchanged. The hypothesis models
the DynamoDB guarantee that every stored item carries its key
attribute. -/
theorem c2_conditional_create (L : DynamoDBPersistenceLayer) (st : PersistState)
    (now : Int) (event : Json)
    (hkey : ∀ it, assocGet st.table (get_hashed_idempotency_key L event) = some it →
      (assocGet it L.key_attr).isSome = true) :
    ((save_inprogress L st now event).1 = Except.ok () ↔
      (assocGet st.table (get_hashed_idempotency_key L event) = none ∨
        ∃ it t, assocGet st.table (get_hashed_idempotency_key L event) = some it ∧
          assocGet it sExpiration = some (AttrVal.int t) ∧ t < now)) ∧
    ((save_inprogress L st now event).1 ≠ Except.ok () →
      (save_inprogress L st now event).1 = Except.error PersistenceError.itemAlreadyExists ∧
      (save_inprogress L st now event).2 = st) := by
  cases htab : assocGet st.table (get_hashed_idempotency_key L event) with
  | none =>
    have hok : (save_inprogress L st now event).1 = Except.ok () := by
      simp only [save_inprogress, _put_record, htab]
      cases L.use_local_cache <;> simp
    exact ⟨⟨fun _ => Or.inl rfl, fun _ => hok⟩, fun hne => absurd hok hne⟩
  | some it =>
    have hksome := hkey it htab
    by_cases hc : putConditionHolds L it now
    · have hok : (save_inprogress L st now event).1 = Except.ok () := by
        simp only [save_inprogress, _put_record, htab, hc, if_true]
        cases L.use_local_cache <;> simp
      obtain ⟨t, hexp, hlt⟩ := (putConditionHolds_iff L it now hksome).mp hc
      exact ⟨⟨fun _ => Or.inr ⟨it, t, rfl, hexp, hlt⟩, fun _ => hok⟩, fun hne => absurd hok hne⟩
    · have hcb : putConditionHolds L it now = false := by simpa using hc
      have herr : save_inprogress L st now event = (Except.error .itemAlreadyExists, st) := by
        simp only [save_inprogress, _put_record, htab, hcb]
        simp
      constructor
      · constructor
        · intro hok
          rw [herr] at hok
          exact absurd hok (by simp)
        · rintro (h1 | ⟨it2, t, h1, h2, h3⟩)
          · exact Option.noConfusion h1
          · injection h1 with h4
            subst h4
            exact absurd ((putConditionHolds_iff L it now hksome).mpr ⟨t, h2, h3⟩) hc
      · intro _
        rw [herr]
        exact ⟨rfl, rfl⟩

theorem c2_witness :
    (save_inprogress L0 { table := [], cache := [] } 10 Json.null).1 = Except.ok () := by
  have h := (c2_conditional_create L0 { table := [], cache := [] } 10 Json.null
    (fun it h => Option.noConfusion h)).1
  exact h.mpr (Or.inl rfl)

/-- Claim C1 as written is violated by the code: with the cache disabled
and the backend holding a row for the derived key whose expiry (5) is in
the past at time 100, `get_record` returns the row as a `DataRecord`
instead of failing with `ItemNotFoundError`. -/
theorem c1_counterexample :
    (get_record L0 { table := [(k0, itemExpired)], cache := [] } 100 Json.null).1 =
      Except.ok recExpired ∧
    recExpired.is_expired 100 = true := by
  exact ⟨rfl, rfl⟩

/-- Claim C1 amended: `get_record` does NOT treat an expired backend row as
missing — it returns the stored record unchanged (the effective status
of the record then reads EXPIRED); only `save_inprogress` treats the expired row
as replaceable and succeeds on the same key. Stated for a layer with the
default attribute names, cache disabled, over any backend row whose
attributes are well-typed and whose nonzero expiry is in the past. -/
theorem c1_expired_row_returned (L : DynamoDBPersistenceLayer) (st : PersistState)
    (now : Int) (event : Json) (it : Item) (ks s : String) (t : Int)
    (hcache : L.use_local_cache = false)
    (hd : L.key_attr = sId ∧ L.expiry_attr = sExpiration ∧ L.status_attr = sStatus ∧
      L.data_attr = sData)
    (hit : assocGet st.table (get_hashed_idempotency_key L event) = some it)
    (hk : assocGet it sId = some (AttrVal.str ks))
    (hs : assocGet it sStatus = some (AttrVal.str s))
    (ht : assocGet it sExpiration = some (AttrVal.int t))
    (hdat : assocGet it sData = none)
    (ht0 : t ≠ 0) (htlt : t < now) :
    get_record L st now event =
      (Except.ok { idempotency_key := ks, _status := some s, expiry_timestamp := some t },
        st) ∧
    DataRecord.status { idempotency_key := ks, _status := some s, expiry_timestamp := some t }
      now = Except.ok sEXPIRED ∧
    (save_inprogress L st now event).1 = Except.ok () := by
  obtain ⟨hd1, hd2, hd3, hd4⟩ := hd
  refine ⟨?_, ?_, ?_⟩
  · simp [get_record, hcache, _get_record, hit, _item_to_data_record, readKeyAttr,
      readStrAttr, readIntAttr, readDataAttr, hd1, hd2, hd3, hd4, hk, hs, ht, hdat]
  · have hexp : DataRecord.is_expired
        { idempotency_key := ks, _status := some s, expiry_timestamp := some t } now = true := by
      simp [DataRecord.is_expired, ht0]
      omega
    simp [DataRecord.status, hexp]
  · have hc : putConditionHolds L it now = true := by
      simp [putConditionHolds, ht, htlt]
    simp only [save_inprogress, _put_record, hit, hc, if_true]
    cases L.use_local_cache <;> simp

theorem c1_witness :
    get_record L0 { table := [(k0, itemExpired)], cache := [] } 100 Json.null =
      (Except.ok recExpired, { table := [(k0, itemExpired)], cache := [] }) ∧
    DataRecord.status recExpired 100 = Except.ok sEXPIRED ∧
    (save_inprogress L0 { table := [(k0, itemExpired)], cache := [] } 100 Json.null).1 =
      Except.ok () := by
  have h := c1_expired_row_returned L0 { table := [(k0, itemExpired)], cache := [] }
    100 Json.null itemExpired k0 sINPROGRESS 5 rfl ⟨rfl, rfl, rfl, rfl⟩ rfl rfl rfl rfl rfl
    (by decide) (by decide)
  exact h

/-- Claim C5 as written is violated by the code: with the cache enabled
and empty, a `get_record` that misses the cache and successfully reads
the record from the backend leaves the cache empty — the miss path never
repopulates the cache. -/
theorem c5_counterexample :
    (get_record L1 { table := [(k0, itemLive)], cache := [] } 10 Json.null).1 =
      Except.ok recLive ∧
    (get_record L1 { table := [(k0, itemLive)], cache := [] } 10 Json.null).2.cache = [] := by
  exact ⟨rfl, rfl⟩

/-- Claim C5 amended: with the cache enabled, a `get_record` whose key is
absent from the cache returns exactly the backend read and leaves the
whole state — backend table AND local cache — unchanged; the cache is not
repopulated on the miss path. -/
theorem c5_get_miss_no_repopulate (L : DynamoDBPersistenceLayer) (st : PersistState)
    (now : Int) (event : Json)
    (hc : L.use_local_cache = true)
    (hmiss : cacheGet st.cache (get_hashed_idempotency_key L event) = none) :
    get_record L st now event =
      (_get_record L st.table (get_hashed_idempotency_key L event), st) := by
  simp [get_record, hc, _retrieve_from_cache, hmiss]

theorem c5_witness :
    get_record L1 { table := [(k0, itemLive)], cache := [] } 0 Json.null =
      (Except.ok recLive, { table := [(k0, itemLive)], cache := [] }) := by
  have h := c5_get_miss_no_repopulate L1 { table := [(k0, itemLive)], cache := [] }
    0 Json.null rfl rfl
  rw [h]
  rfl

/-- Claim C9: with the cache enabled, a cached record whose `is_expired`
is true behaves as a miss: `get_record` evicts the stale entry from the
cache and falls through to the backend read. -/
theorem c9_expired_cache_eviction (L : DynamoDBPersistenceLayer) (st : PersistState)
    (now : Int) (event : Json) (r : DataRecord)
    (hc : L.use_local_cache = true)
    (hhit : cacheGet st.cache (get_hashed_idempotency_key L event) = some r)
    (hexp : r.is_expired now = true) :
    get_record L st now event =
      (_get_record L st.table (get_hashed_idempotency_key L event),
        { table := st.table,
          cache := _delete_from_cache st.cache (get_hashed_idempotency_key L event) }) := by
  simp [get_record, hc, _retrieve_from_cache, hhit, hexp]

theorem c9_witness :
    get_record L1 { table := [(k0, itemLive)], cache := [(k0, recExpired)] } 10 Json.null =
      (Except.ok recLive, { table := [(k0, itemLive)], cache := [] }) := by
  have h := c9_expired_cache_eviction L1
    { table := [(k0, itemLive)], cache := [(k0, recExpired)] } 10 Json.null recExpired
    rfl rfl rfl
  rw [h]
  rfl

/-- A conditional create always succeeds when the backend has no row for
the derived key. -/
theorem save_inprogress_ok_of_absent (L : DynamoDBPersistenceLayer) (st : PersistState)
    (now : Int) (event : Json)
    (h : assocGet st.table (get_hashed_idempotency_key L event) = none) :
    (save_inprogress L st now event).1 = Except.ok () := by
  simp only [save_inprogress, _put_record, h]
  cases L.use_local_cache <;> simp

/-- Claim C8: after a successful `save_inprogress`, a `save_error` on the
same payload deletes the backend row (its table becomes exactly the
previous table with the key erased — the error value is never persisted)
and the cache entry (when the cache is enabled), leaving no record for
the key, so a subsequent `save_inprogress` succeeds immediately. -/
theorem c8_error_releases_key (L : DynamoDBPersistenceLayer) (st : PersistState)
    (n1 n2 n3 : Int) (event : Json) (exc : String)
    (h1 : (save_inprogress L st n1 event).1 = Except.ok ()) :
    assocGet (save_error L (save_inprogress L st n1 event).2 n2 event exc).table
      (get_hashed_idempotency_key L event) = none ∧
    (L.use_local_cache = true →
      cacheGet (save_error L (save_inprogress L st n1 event).2 n2 event exc).cache
        (get_hashed_idempotency_key L event) = none) ∧
    (save_inprogress L (save_error L (save_inprogress L st n1 event).2 n2 event exc)
      n3 event).1 = Except.ok () ∧
    (save_error L (save_inprogress L st n1 event).2 n2 event exc).table =
      assocErase (save_inprogress L st n1 event).2.table
        (get_hashed_idempotency_key L event) := by
  have htbl : (save_error L (save_inprogress L st n1 event).2 n2 event exc).table =
      assocErase (save_inprogress L st n1 event).2.table
        (get_hashed_idempotency_key L event) := by
    cases hcl : L.use_local_cache <;> simp [save_error, _delete_record, hcl]
  have hnone : assocGet (save_error L (save_inprogress L st n1 event).2 n2 event exc).table
      (get_hashed_idempotency_key L event) = none := by
    rw [htbl]
    exact assocGet_erase_self _ _
  refine ⟨hnone, ?_, ?_, htbl⟩
  · intro hcl
    simp [save_error, hcl, _delete_from_cache, cacheDelete, cacheGet, assocGet_erase_self]
  · exact save_inprogress_ok_of_absent L _ n3 event hnone

theorem c8_witness :
    (save_inprogress L1
      (save_error L1 (save_inprogress L1 { table := [], cache := [] } 0 Json.null).2
        1 Json.null sERROR) 2 Json.null).1 = Except.ok () :=
  (c8_error_releases_key L1 { table := [], cache := [] } 0 1 2 Json.null sERROR rfl).2.2.1

/-- Claim C6 as written is violated by the code, on both of its arms:
with a custom status attribute name (layer `L6`), and equally with only a
custom expiry attribute name (layer `L7`), the conditional create still
writes the literal names, but the subsequent read does not yield a
`DataRecord` with `None` fields — it raises a `KeyError` for the
configured status (resp. expiry) attribute, because
`_item_to_data_record` indexes `item[self.status_attr]` and
`item[self.expiry_attr]` directly. -/
theorem c6_counterexample :
    (save_inprogress L6 { table := [], cache := [] } 0 Json.null).1 = Except.ok () ∧
    (get_record L6 (save_inprogress L6 { table := [], cache := [] } 0 Json.null).2
      1 Json.null).1 = Except.error (PersistenceError.keyError sSt) ∧
    (save_inprogress L7 { table := [], cache := [] } 0 Json.null).1 = Except.ok () ∧
    (get_record L7 (save_inprogress L7 { table := [], cache := [] } 0 Json.null).2
      1 Json.null).1 = Except.error (PersistenceError.keyError sExp) := by
  exact ⟨rfl, rfl, rfl, rfl⟩

/-- Claim C6 amended: `_put_record` writes the expiry and status under the
literal attribute names `expiration` and `status` (and only the key under
the configured `key_attr`). Consequently a following `_get_record` on the
stored key does not return a record with `None` fields: with a status
attribute configured to any non-default name the read raises `KeyError`
for the configured status attribute (read first, in keyword order), and
with the default status attribute but an expiry attribute configured to
any non-default name the status read succeeds and the read then raises
`KeyError` for the configured expiry attribute; only the default
attribute configuration makes create and read agree. -/
theorem c6_custom_attr_mismatch (L : DynamoDBPersistenceLayer) (tbl tbl2 : Table)
    (r : DataRecord) (now : Int)
    (hput : _put_record L tbl r now = Except.ok tbl2)
    (hk2 : L.key_attr ≠ sExpiration) (hk3 : L.key_attr ≠ sStatus) :
    ∃ it, assocGet tbl2 r.idempotency_key = some it ∧
      assocGet it sExpiration = some (attrOfExpiry r.expiry_timestamp) ∧
      assocGet it sStatus = some (AttrVal.str sINPROGRESS) ∧
      (L.status_attr ≠ L.key_attr → L.status_attr ≠ sExpiration → L.status_attr ≠ sStatus →
        assocGet it L.status_attr = none ∧
        _get_record L tbl2 r.idempotency_key =
          Except.error (PersistenceError.keyError L.status_attr)) ∧
      (L.status_attr = sStatus → L.expiry_attr ≠ L.key_attr → L.expiry_attr ≠ sExpiration →
        L.expiry_attr ≠ sStatus →
        assocGet it L.expiry_attr = none ∧
        _get_record L tbl2 r.idempotency_key =
          Except.error (PersistenceError.keyError L.expiry_attr)) := by
  have htbl2 := _put_record_ok L tbl r now tbl2 hput
  subst htbl2
  have hestat : sExpiration ≠ sStatus := by decide
  refine ⟨_, assocGet_set_self _ _ _, ?_, ?_, ?_, ?_⟩
  · simp [assocGet, hk2]
  · simp [assocGet, hk3, hestat]
  · intro hs1 hs2 hs3
    have h1 : L.key_attr ≠ L.status_attr := Ne.symm hs1
    have h2 : sExpiration ≠ L.status_attr := Ne.symm hs2
    have h3 : sStatus ≠ L.status_attr := Ne.symm hs3
    constructor
    · simp [assocGet, h1, h2, h3]
    · simp [_get_record, assocGet_set_self, _item_to_data_record, readKeyAttr, readStrAttr,
        assocGet, h1, h2, h3]
  · intro hsd he1 he2 he3
    have g1 : L.key_attr ≠ L.expiry_attr := Ne.symm he1
    have g2 : sExpiration ≠ L.expiry_attr := Ne.symm he2
    have g3 : sStatus ≠ L.expiry_attr := Ne.symm he3
    constructor
    · simp [assocGet, g1, g2, g3]
    · simp [_get_record, assocGet_set_self, _item_to_data_record, readKeyAttr, readStrAttr,
        readIntAttr, assocGet, hsd, hk3, hestat, g1, g2, g3]

/-- Attribute lookups on the item produced by the `save_success` update
clauses (data, then expiry, then status), over any pre-existing item
contents `w`. -/
theorem tripleSet_lookup (w : List (String × AttrVal)) (d : JsonStr) (t : Int) (s : String) :
    assocGet (assocSet (assocSet (assocSet w sData (AttrVal.data d)) sExpiration
        (AttrVal.int t)) sStatus (AttrVal.str s)) sStatus = some (AttrVal.str s) ∧
    assocGet (assocSet (assocSet (assocSet w sData (AttrVal.data d)) sExpiration
        (AttrVal.int t)) sStatus (AttrVal.str s)) sExpiration = some (AttrVal.int t) ∧
    assocGet (assocSet (assocSet (assocSet w sData (AttrVal.data d)) sExpiration
        (AttrVal.int t)) sStatus (AttrVal.str s)) sData = some (AttrVal.data d) ∧
    assocGet (assocSet (assocSet (assocSet w sData (AttrVal.data d)) sExpiration
        (AttrVal.int t)) sStatus (AttrVal.str s)) sId = assocGet w sId := by
  refine ⟨assocGet_set_self _ _ _, ?_, ?_, ?_⟩
  · rw [assocGet_set_ne _ _ _ _ (by decide), assocGet_set_self]
  · rw [assocGet_set_ne _ _ _ _ (by decide), assocGet_set_ne _ _ _ _ (by decide),
      assocGet_set_self]
  · rw [assocGet_set_ne _ _ _ _ (by decide), assocGet_set_ne _ _ _ _ (by decide),
      assocGet_set_ne _ _ _ _ (by decide)]

/-- Reading back, with the default attribute names, the item written by the
`save_success` update yields exactly the written record. -/
theorem update_readback (L : DynamoDBPersistenceLayer)
    (hd1 : L.key_attr = sId) (hd2 : L.expiry_attr = sExpiration)
    (hd3 : L.status_attr = sStatus) (hd4 : L.data_attr = sData)
    (tbl : Table) (k s : String) (t : Int) (d : JsonStr) :
    _get_record L (updateItem tbl L.key_attr k
      [(L.data_attr, AttrVal.data d), (L.expiry_attr, AttrVal.int t),
       (L.status_attr, AttrVal.str s)]) k =
      Except.ok { idempotency_key := k, _status := some s,
                  expiry_timestamp := some t, response_data := some d } := by
  rw [hd1, hd2, hd3, hd4]
  simp only [updateItem, List.foldl]
  simp only [_get_record, assocGet_set_self]
  obtain ⟨l1, l2, l3, l4⟩ := tripleSet_lookup
    ((sId, AttrVal.str k) :: ((assocGet tbl k).getD []).filter (fun p => p.1 ≠ sId)) d t s
  have l5 : assocGet ((sId, AttrVal.str k) ::
      ((assocGet tbl k).getD []).filter (fun p => p.1 ≠ sId)) sId =
      some (AttrVal.str k) := by
    simp [assocGet]
  simp only [_item_to_data_record, readKeyAttr, readStrAttr, readIntAttr, readDataAttr,
    hd1, hd2, hd3, hd4, l1, l2, l3, l4, l5]

/-- Claim C4: `save_success` followed by `get_record` (default attribute
names, any cache configuration), with time moving forward and the
expiry of the record not yet passed, succeeds and returns a record whose
effective status is COMPLETED and whose stored response deserializes to a
value equal to the saved result — serialization round-trips. -/
theorem c4_success_roundtrip (L : DynamoDBPersistenceLayer) (st : PersistState)
    (n1 n2 : Int) (event result : Json)
    (hd : L.key_attr = sId ∧ L.expiry_attr = sExpiration ∧ L.status_attr = sStatus ∧
      L.data_attr = sData)
    (h12 : n1 ≤ n2) (httl : n2 ≤ n1 + L.expires_after) :
    (save_success L st n1 event result).1 = Except.ok () ∧
    ∃ r, (get_record L (save_success L st n1 event result).2 n2 event).1 = Except.ok r ∧
      r.status n2 = Except.ok sCOMPLETED ∧
      r.response_json_as_dict = Except.ok result := by
  obtain ⟨hd1, hd2, hd3, hd4⟩ := hd
  have hmem : sCOMPLETED ∈ statusValues := by decide
  have hexp1 : DataRecord.is_expired
      { idempotency_key := get_hashed_idempotency_key L event, _status := some sCOMPLETED,
        expiry_timestamp := some (_get_expiry_timestamp L n1),
        response_data := some (Json.dumps result) } n1 = false := by
    simp only [DataRecord.is_expired]
    by_cases ht0 : _get_expiry_timestamp L n1 = 0
    · simp [ht0]
    · simp only [ht0, if_false, decide_eq_false_iff_not]
      simp only [_get_expiry_timestamp] at *
      omega
  have hst1 : DataRecord.status
      { idempotency_key := get_hashed_idempotency_key L event, _status := some sCOMPLETED,
        expiry_timestamp := some (_get_expiry_timestamp L n1),
        response_data := some (Json.dumps result) } n1 = Except.ok sCOMPLETED := by
    simp [DataRecord.status, hexp1, hmem]
  have hupd : _update_record L st.table
      { idempotency_key := get_hashed_idempotency_key L event, _status := some sCOMPLETED,
        expiry_timestamp := some (_get_expiry_timestamp L n1),
        response_data := some (Json.dumps result) } n1 =
      Except.ok (updateItem st.table L.key_attr (get_hashed_idempotency_key L event)
        [(L.data_attr, AttrVal.data (Json.dumps result)),
         (L.expiry_attr, AttrVal.int (_get_expiry_timestamp L n1)),
         (L.status_attr, AttrVal.str sCOMPLETED)]) := by
    simp [_update_record, hst1, attrOfData, attrOfExpiry]
  have hback := update_readback L hd1 hd2 hd3 hd4 st.table
    (get_hashed_idempotency_key L event) sCOMPLETED (_get_expiry_timestamp L n1)
    (Json.dumps result)
  have hexp2 : DataRecord.is_expired
      { idempotency_key := get_hashed_idempotency_key L event, _status := some sCOMPLETED,
        expiry_timestamp := some (_get_expiry_timestamp L n1),
        response_data := some (Json.dumps result) } n2 = false := by
    simp only [DataRecord.is_expired]
    by_cases ht0 : _get_expiry_timestamp L n1 = 0
    · simp [ht0]
    · simp only [ht0, if_false, decide_eq_false_iff_not]
      simp only [_get_expiry_timestamp] at *
      omega
  have hst2 : DataRecord.status
      { idempotency_key := get_hashed_idempotency_key L event, _status := some sCOMPLETED,
        expiry_timestamp := some (_get_expiry_timestamp L n1),
        response_data := some (Json.dumps result) } n2 = Except.ok sCOMPLETED := by
    simp [DataRecord.status, hexp2, hmem]
  have hjson : DataRecord.response_json_as_dict
      { idempotency_key := get_hashed_idempotency_key L event, _status := some sCOMPLETED,
        expiry_timestamp := some (_get_expiry_timestamp L n1),
        response_data := some (Json.dumps result) } = Except.ok result := by
    simp [DataRecord.response_json_as_dict, loads_dumps]
  refine ⟨?_, ?_⟩
  · cases hcl : L.use_local_cache <;> simp [save_success, hupd, hcl]
  · refine ⟨_, ?_, hst2, hjson⟩
    cases hcl : L.use_local_cache with
    | false =>
      simp only [save_success, hupd, hcl, Bool.false_eq_true, if_false]
      simp [get_record, hcl, hback]
    | true =>
      simp only [save_success, hupd, hcl, if_true]
      cases hm : L.local_cache_maxsize with
      | zero =>
        simp only [get_record, hcl, if_true, _retrieve_from_cache, _save_to_cache, hm,
          cachePut_zero]
        simp [cacheGet, assocGet, hback]
      | succ m2 =>
        have hget : cacheGet (_save_to_cache L st.cache
            { idempotency_key := get_hashed_idempotency_key L event,
              _status := some sCOMPLETED,
              expiry_timestamp := some (_get_expiry_timestamp L n1),
              response_data := some (Json.dumps result) })
            (get_hashed_idempotency_key L event) =
            some { idempotency_key := get_hashed_idempotency_key L event,
                   _status := some sCOMPLETED,
                   expiry_timestamp := some (_get_expiry_timestamp L n1),
                   response_data := some (Json.dumps result) } := by
          simp only [_save_to_cache]
          exact cacheGet_put_self _ _ _ _ (by omega)
        simp [get_record, hcl, _retrieve_from_cache, hget, hexp2]

theorem c4_witness :
    (save_success L0 { table := [], cache := [] } 0 Json.null (Json.bool true)).1 =
      Except.ok () ∧
    ∃ r, (get_record L0
        (save_success L0 { table := [], cache := [] } 0 Json.null (Json.bool true)).2
        10 Json.null).1 = Except.ok r ∧
      r.status 10 = Except.ok sCOMPLETED ∧
      r.response_json_as_dict = Except.ok (Json.bool true) :=
  c4_success_roundtrip L0 { table := [], cache := [] } 0 10 Json.null (Json.bool true)
    ⟨rfl, rfl, rfl, rfl⟩ (by decide) (by decide)

theorem c6_witness :
    _get_record L6
      [(k0, [(sId, AttrVal.str k0), (sExpiration, AttrVal.int 1000),
             (sStatus, AttrVal.str sINPROGRESS)])] k0 =
      Except.error (PersistenceError.keyError sSt) ∧
    _get_record L7
      [(k0, [(sId, AttrVal.str k0), (sExpiration, AttrVal.int 1000),
             (sStatus, AttrVal.str sINPROGRESS)])] k0 =
      Except.error (PersistenceError.keyError sExp) := by
  constructor
  · have h := c6_custom_attr_mismatch L6 []
      [(k0, [(sId, AttrVal.str k0), (sExpiration, AttrVal.int 1000),
             (sStatus, AttrVal.str sINPROGRESS)])] recLive 0 rfl
      (by decide) (by decide)
    obtain ⟨it, hit, he, hs, harm1, harm2⟩ := h
    exact (harm1 (by decide) (by decide) (by decide)).2
  · have h := c6_custom_attr_mismatch L7 []
      [(k0, [(sId, AttrVal.str k0), (sExpiration, AttrVal.int 1000),
             (sStatus, AttrVal.str sINPROGRESS)])] recLive 0 rfl
      (by decide) (by decide)
    obtain ⟨it, hit, he, hs, harm1, harm2⟩ := h
    exact (harm2 rfl (by decide) (by decide) (by decide)).2


/-- Lookups inside a prefix of an association list agree with the full
list (the first binding found in the prefix is the first binding overall). -/
theorem assocGet_take {α : Type} (l : List (String × α)) (m : Nat) (k : String) (v : α)
    (h : assocGet (l.take m) k = some v) : assocGet l k = some v := by
  induction l generalizing m with
  | nil => simp [List.take] at h; exact Option.noConfusion h
  | cons p l ih =>
    cases m with
    | zero => exact Option.noConfusion h
    | succ m =>
      obtain ⟨k1, v1⟩ := p
      simp only [List.take] at h
      by_cases hk : k1 = k
      · simpa [assocGet, hk] using h
      · simp only [assocGet, hk, if_false] at h ⊢
        exact ih m h

/-- A pointwise property of all bindings is preserved by `assocSet` with a
value satisfying it. -/
theorem assocAll_set {α : Type} (P : α → Prop) (l : List (String × α)) (k0 : String)
    (vnew : α) (hold : ∀ k v, assocGet l k = some v → P v) (hnew : P vnew) :
    ∀ k v, assocGet (assocSet l k0 vnew) k = some v → P v := by
  intro k v h
  by_cases hk : k = k0
  · subst hk
    rw [assocGet_set_self] at h
    injection h with h2
    exact h2 ▸ hnew
  · rw [assocGet_set_ne _ _ _ _ hk] at h
    exact hold k v h

/-- A pointwise property of all bindings is preserved by `assocErase`. -/
theorem assocAll_erase {α : Type} (P : α → Prop) (l : List (String × α)) (k0 : String)
    (hold : ∀ k v, assocGet l k = some v → P v) :
    ∀ k v, assocGet (assocErase l k0) k = some v → P v := by
  intro k v h
  by_cases hk : k = k0
  · subst hk
    rw [assocGet_erase_self] at h
    exact Option.noConfusion h
  · rw [assocGet_erase_ne _ _ _ hk] at h
    exact hold k v h

/-- A pointwise property of all bindings is preserved by `List.take`. -/
theorem assocAll_take {α : Type} (P : α → Prop) (l : List (String × α)) (m : Nat)
    (hold : ∀ k v, assocGet l k = some v → P v) :
    ∀ k v, assocGet (l.take m) k = some v → P v := by
  intro k v h
  exact hold k v (assocGet_take l m k v h)

/-- A record successfully read from an item satisfying the item invariant
satisfies the record invariant. -/
theorem recordOk_of_item (L : DynamoDBPersistenceLayer) (it : Item) (r : DataRecord)
    (hio : ItemOk L it) (h : _item_to_data_record L it = Except.ok r) : RecordOk r := by
  unfold _item_to_data_record at h
  cases h1 : readKeyAttr it L.key_attr with
  | error e => simp only [h1] at h; exact Except.noConfusion h
  | ok kk =>
    simp only [h1] at h
    cases h2 : readStrAttr it L.status_attr with
    | error e => simp only [h2] at h; exact Except.noConfusion h
    | ok st0 =>
      simp only [h2] at h
      cases h3 : readIntAttr it L.expiry_attr with
      | error e => simp only [h3] at h; exact Except.noConfusion h
      | ok exp0 =>
        simp only [h3] at h
        cases h4 : readDataAttr it L.data_attr with
        | error e => simp only [h4] at h; exact Except.noConfusion h
        | ok rd0 =>
          simp only [h4] at h
          have hr := Except.ok.inj h
          rcases hio with ⟨hs, d, hd⟩ | ⟨hs, hd⟩
          · have hst0 : st0 = some sCOMPLETED := by
              simp only [readStrAttr, hs] at h2
              exact (Except.ok.inj h2).symm
            have hd0 : rd0 = some d := by
              simp only [readDataAttr, hd] at h4
              exact (Except.ok.inj h4).symm
            rw [← hr]
            simp [RecordOk, hst0, hd0]
          · have hd0 : rd0 = none := by
              simp only [readDataAttr, hd] at h4
              exact (Except.ok.inj h4).symm
            have hst0 : st0 ≠ some sCOMPLETED := by
              intro hc
              cases hl : assocGet it L.status_attr with
              | none => simp only [readStrAttr, hl] at h2; exact Except.noConfusion h2
              | some av =>
                cases av with
                | str s2 =>
                  simp only [readStrAttr, hl] at h2
                  have h5 : st0 = some s2 := (Except.ok.inj h2).symm
                  rw [hc] at h5
                  injection h5 with h6
                  rw [← h6] at hl
                  exact hs hl
                | int n => simp only [readStrAttr, hl] at h2; exact Except.noConfusion h2
                | data d2 => simp only [readStrAttr, hl] at h2; exact Except.noConfusion h2
                | null =>
                  simp only [readStrAttr, hl] at h2
                  have h5 : st0 = none := (Except.ok.inj h2).symm
                  rw [hc] at h5
                  exact Option.noConfusion h5
            rw [← hr]
            simp [RecordOk, hst0, hd0]

/-- Claim C10 as written is violated by the code: after `save_success` at
time 0 (TTL 3600), a `get_record` at time 5000 returns a record whose
response field is set while its status as read is EXPIRED, not COMPLETED
— the claimed biconditional (response set iff status as read is COMPLETED) fails
for expired completed records. -/
theorem c10_counterexample :
    (get_record L0
        (save_success L0 { table := [], cache := [] } 0 Json.null (Json.bool true)).2
        5000 Json.null).1 =
      Except.ok { idempotency_key := k0, _status := some sCOMPLETED,
                  expiry_timestamp := some 3600,
                  response_data := some (Json.dumps (Json.bool true)) } ∧
    some (Json.dumps (Json.bool true)) ≠ (none : Option JsonStr) ∧
    DataRecord.status { idempotency_key := k0, _status := some sCOMPLETED,
                        expiry_timestamp := some 3600,
                        response_data := some (Json.dumps (Json.bool true)) } 5000 =
      Except.ok sEXPIRED := by
  refine ⟨rfl, by simp, rfl⟩

/-- Claim C10 amended: for a default-attribute layer with a nonnegative
TTL, the invariant that the response field is set iff the STORED status is
COMPLETED holds for every backend item and cached record, is preserved
by all four operations, and holds for every record returned by
`get_record`; the status AS READ of such a record may however be EXPIRED
(with the response still set), so the invariant holds for the stored
status, not the effective one. -/
theorem c10_response_iff_stored_completed (L : DynamoDBPersistenceLayer)
    (hd : L.key_attr = sId ∧ L.expiry_attr = sExpiration ∧ L.status_attr = sStatus ∧
      L.data_attr = sData)
    (httl : 0 ≤ L.expires_after)
    (st : PersistState) (now : Int) (event result : Json) (exc : String)
    (hok : StateOk L st) :
    StateOk L (save_inprogress L st now event).2 ∧
    StateOk L (save_success L st now event result).2 ∧
    StateOk L (save_error L st now event exc) ∧
    StateOk L (get_record L st now event).2 ∧
    (∀ r, (get_record L st now event).1 = Except.ok r → RecordOk r) := by
  obtain ⟨hd1, hd2, hd3, hd4⟩ := hd
  obtain ⟨htab, hcache⟩ := hok
  have hmem : sCOMPLETED ∈ statusValues := by decide
  refine ⟨?_, ?_, ?_, ?_, ?_⟩
  · -- save_inprogress preserves the invariant
    cases hput : _put_record L st.table
        { idempotency_key := get_hashed_idempotency_key L event,
          _status := some sINPROGRESS,
          expiry_timestamp := some (_get_expiry_timestamp L now) } now with
    | error e =>
      simp only [save_inprogress, hput]
      exact ⟨htab, hcache⟩
    | ok tbl2 =>
      have htbl2 := _put_record_ok L st.table _ now tbl2 hput
      subst htbl2
      have hitem : ItemOk L
          [(L.key_attr, AttrVal.str (get_hashed_idempotency_key L event)),
           (sExpiration, attrOfExpiry (some (_get_expiry_timestamp L now))),
           (sStatus, AttrVal.str sINPROGRESS)] := by
        unfold ItemOk
        rw [hd1, hd3, hd4]
        right
        constructor
        · simp [assocGet, sId, sStatus, sExpiration, sINPROGRESS, sCOMPLETED]
        · simp [assocGet, sId, sStatus, sExpiration, sData]
      have hrec : RecordOk
          { idempotency_key := get_hashed_idempotency_key L event,
            _status := some sINPROGRESS,
            expiry_timestamp := some (_get_expiry_timestamp L now) } := by
        simp [RecordOk, sINPROGRESS, sCOMPLETED]
      cases hcl : L.use_local_cache with
      | false =>
        simp only [save_inprogress, hput, hcl, Bool.false_eq_true, if_false]
        exact ⟨assocAll_set _ _ _ _ htab hitem, hcache⟩
      | true =>
        simp only [save_inprogress, hput, hcl, if_true]
        refine ⟨assocAll_set _ _ _ _ htab hitem, ?_⟩
        simp only [_save_to_cache, cachePut]
        exact assocAll_take _ _ _ (assocAll_set _ _ _ _ hcache hrec)
  · -- save_success preserves the invariant
    have hexp1 : DataRecord.is_expired
        { idempotency_key := get_hashed_idempotency_key L event, _status := some sCOMPLETED,
          expiry_timestamp := some (_get_expiry_timestamp L now),
          response_data := some (Json.dumps result) } now = false := by
      simp only [DataRecord.is_expired]
      by_cases ht0 : _get_expiry_timestamp L now = 0
      · simp [ht0]
      · simp only [ht0, if_false, decide_eq_false_iff_not]
        simp only [_get_expiry_timestamp] at *
        omega
    have hst1 : DataRecord.status
        { idempotency_key := get_hashed_idempotency_key L event, _status := some sCOMPLETED,
          expiry_timestamp := some (_get_expiry_timestamp L now),
          response_data := some (Json.dumps result) } now = Except.ok sCOMPLETED := by
      simp [DataRecord.status, hexp1, hmem]
    have hupd : _update_record L st.table
        { idempotency_key := get_hashed_idempotency_key L event, _status := some sCOMPLETED,
          expiry_timestamp := some (_get_expiry_timestamp L now),
          response_data := some (Json.dumps result) } now =
        Except.ok (updateItem st.table L.key_attr (get_hashed_idempotency_key L event)
          [(L.data_attr, AttrVal.data (Json.dumps result)),
           (L.expiry_attr, AttrVal.int (_get_expiry_timestamp L now)),
           (L.status_attr, AttrVal.str sCOMPLETED)]) := by
      simp [_update_record, hst1, attrOfData, attrOfExpiry]
    have hitem : ItemOk L
        (List.foldl (fun it p => assocSet it p.1 p.2)
          ((L.key_attr, AttrVal.str (get_hashed_idempotency_key L event)) ::
            ((assocGet st.table (get_hashed_idempotency_key L event)).getD []).filter
              (fun p => p.1 ≠ L.key_attr))
          [(L.data_attr, AttrVal.data (Json.dumps result)),
           (L.expiry_attr, AttrVal.int (_get_expiry_timestamp L now)),
           (L.status_attr, AttrVal.str sCOMPLETED)]) := by
      unfold ItemOk
      rw [hd1, hd2, hd3, hd4]
      simp only [List.foldl]
      left
      obtain ⟨l1, l2, l3, l4⟩ := tripleSet_lookup
        ((sId, AttrVal.str (get_hashed_idempotency_key L event)) ::
          ((assocGet st.table (get_hashed_idempotency_key L event)).getD []).filter
            (fun p => p.1 ≠ sId))
        (Json.dumps result) (_get_expiry_timestamp L now) sCOMPLETED
      exact ⟨l1, Json.dumps result, l3⟩
    have hrec : RecordOk
        { idempotency_key := get_hashed_idempotency_key L event, _status := some sCOMPLETED,
          expiry_timestamp := some (_get_expiry_timestamp L now),
          response_data := some (Json.dumps result) } := by
      simp [RecordOk]
    cases hcl : L.use_local_cache with
    | false =>
      simp only [save_success, hupd, hcl, Bool.false_eq_true, if_false]
      refine ⟨?_, hcache⟩
      simp only [updateItem]
      exact assocAll_set _ _ _ _ htab hitem
    | true =>
      simp only [save_success, hupd, hcl, if_true]
      constructor
      · simp only [updateItem]
        exact assocAll_set _ _ _ _ htab hitem
      · simp only [_save_to_cache, cachePut]
        exact assocAll_take _ _ _ (assocAll_set _ _ _ _ hcache hrec)
  · -- save_error preserves the invariant
    cases hcl : L.use_local_cache with
    | false =>
      simp only [save_error, _delete_record, hcl, Bool.false_eq_true, if_false]
      exact ⟨assocAll_erase _ _ _ htab, hcache⟩
    | true =>
      simp only [save_error, _delete_record, _delete_from_cache, cacheDelete, hcl, if_true]
      exact ⟨assocAll_erase _ _ _ htab, assocAll_erase _ _ _ hcache⟩
  · -- get_record leaves an invariant state
    cases hcl : L.use_local_cache with
    | false =>
      simp only [get_record, hcl, Bool.false_eq_true, if_false]
      exact ⟨htab, hcache⟩
    | true =>
      cases hget : cacheGet st.cache (get_hashed_idempotency_key L event) with
      | none =>
        simp only [get_record, hcl, if_true, _retrieve_from_cache, hget]
        exact ⟨htab, hcache⟩
      | some r2 =>
        by_cases hexp : r2.is_expired now
        · simp only [get_record, hcl, if_true, _retrieve_from_cache, hget, hexp, if_true]
          exact ⟨htab, assocAll_erase _ _ _ hcache⟩
        · have hexpb : r2.is_expired now = false := by simpa using hexp
          simp only [get_record, hcl, if_true, _retrieve_from_cache, hget, hexpb,
            Bool.false_eq_true, if_false]
          exact ⟨htab, hcache⟩
  · -- every record returned by get_record satisfies the invariant
    intro r h
    have hbackend : ∀ hres : _get_record L st.table (get_hashed_idempotency_key L event) =
        Except.ok r, RecordOk r := by
      intro hres
      unfold _get_record at hres
      cases hg : assocGet st.table (get_hashed_idempotency_key L event) with
      | none =>
        simp only [hg] at hres
        exact Except.noConfusion hres
      | some it =>
        simp only [hg] at hres
        exact recordOk_of_item L it r (htab _ it hg) hres
    cases hcl : L.use_local_cache with
    | false =>
      simp only [get_record, hcl, Bool.false_eq_true, if_false] at h
      exact hbackend h
    | true =>
      cases hget : cacheGet st.cache (get_hashed_idempotency_key L event) with
      | none =>
        simp only [get_record, hcl, if_true, _retrieve_from_cache, hget] at h
        exact hbackend h
      | some r2 =>
        by_cases hexp : r2.is_expired now
        · simp only [get_record, hcl, if_true, _retrieve_from_cache, hget, hexp,
            if_true] at h
          exact hbackend h
        · have hexpb : r2.is_expired now = false := by simpa using hexp
          simp only [get_record, hcl, if_true, _retrieve_from_cache, hget, hexpb,
            Bool.false_eq_true, if_false] at h
          have hr2 := Except.ok.inj h
          exact hr2 ▸ hcache _ r2 hget

theorem c10_witness :
    StateOk L0 (save_inprogress L0 { table := [], cache := [] } 0 Json.null).2 :=
  (c10_response_iff_stored_completed L0 ⟨rfl, rfl, rfl, rfl⟩ (by decide)
    { table := [], cache := [] } 0 Json.null Json.null sERROR
    ⟨fun k it h => Option.noConfusion h, fun k r h => Option.noConfusion h⟩).1
